import Mathlib

/-!
Verification of the ai-piano-roll sequencer core: the tick timeline model,
the note store operations of `src/components/PianoRoll.tsx`, the MIDI byte
writer of `src/lib/midi.ts`, and the best-effort MIDI import scanner.
Each definition is a shallow embedding of the corresponding TypeScript
function; JavaScript numbers are modelled as `Nat`/`Int` (with explicit
32-bit semantics where the source uses JS bitwise operators), and the raw
byte streams as `List Nat`.
-/

/-- Ticks per quarter note, `const PPQ = 480` in PianoRoll.tsx. -/
def PPQ : Nat := 480

/-- Beats per minute, `const BPM = 120` in PianoRoll.tsx. -/
def BPM : Nat := 120

/-- The note record of PianoRoll.tsx:
`type Note = { id: string; tick: number; length: number; midi: number; vel: number }`. -/
structure Note where
  id : String
  tick : Nat
  length : Nat
  midi : Nat
  vel : Nat
deriving DecidableEq

/-- Grid snapping. Both canvas handlers inline this computation with
gridDivision = 4: `Math.floor(tick / (PPQ / 4)) * (PPQ / 4)`
(PianoRoll.tsx lines 567 and 606); the spec names the parameterized form
`snapToGrid(tick, gridDivision)`. `Math.floor` on a nonnegative quotient
is Nat division. -/
def snapToGrid (tick : Nat) (gridDivision : Nat) : Nat :=
  tick / (PPQ / gridDivision) * (PPQ / gridDivision)

/-- The note-creation branch of `handleCanvasMouseDown` (PianoRoll.tsx
560-578): the clicked tick (`Math.floor(gridX / pixelsPerTick)`, a
nonnegative integer) is snapped to the 16th-note grid and a note of length
`PPQ / 4`, velocity 80 and id `Date.now().toString()` is appended.
`now` is the value of `Date.now()` at the click. -/
def addClick (now : Nat) (rawTick : Nat) (midi : Nat) (s : List Note) : List Note :=
  s ++ [{ id := toString now
          tick := snapToGrid rawTick 4
          length := PPQ / 4
          midi := midi
          vel := 80 }]

/-- The drag branch of `handleCanvasMouseMove` (PianoRoll.tsx 598-615).
`rawTick` models `originalTick + tickDelta` (an `Int`: the delta can be
negative), clamped below at 0 (`Math.max(0, ...)`) and snapped;
`rawMidi` models `originalMidi + midiDelta`, clamped by
`Math.max(21, Math.min(108, ...))`. The matching note is updated in place
by `notes.map`. Both clamped values are nonnegative, so `Int.toNat` is
lossless. -/
def moveTo (noteId : String) (rawTick : Int) (rawMidi : Int) (s : List Note) : List Note :=
  let newTick : Nat := (max 0 rawTick).toNat
  let newMidi : Int := max 21 (min 108 rawMidi)
  let snappedTick : Nat := snapToGrid newTick 4
  s.map (fun note =>
    if note.id = noteId then { note with tick := snappedTick, midi := newMidi.toNat } else note)

/-- Note deletion (PianoRoll.tsx 275 and 665, and `removeNote` in the
alternative component): `notes.filter(note => note.id !== noteId)`. -/
def removeNote (noteId : String) (s : List Note) : List Note :=
  s.filter (fun note => note.id ≠ noteId)

/-- The id given to the i-th scanned byte's imported note:
`imported_${Date.now()}_${i}` in `handleFileImport`. -/
def importedId (now : Nat) (i : Nat) : String :=
  "imported_" ++ toString now ++ "_" ++ toString i

/-- One iteration of the `handleFileImport` scan loop (PianoRoll.tsx
773-793) at offset `i`, carrying `(currentTick, importedNotes)`. A byte
whose high nibble is 0x9 is treated as a note-on with pitch `data[i+1]`
and velocity `data[i+2]`; the note is kept only if the velocity is
positive and the pitch lies in 21..108, but `currentTick += PPQ / 8` runs
for every matched status byte. -/
def scanStep (data : List Nat) (now : Nat) (st : Nat × List Note) (i : Nat) : Nat × List Note :=
  let byte := data.getD i 0
  if byte &&& 0xF0 == 0x90 then
    let note := data.getD (i + 1) 0
    let velocity := data.getD (i + 2) 0
    let st2 :=
      if 0 < velocity ∧ 21 ≤ note ∧ note ≤ 108 then
        (st.1, st.2 ++ [{ id := importedId now i
                          tick := st.1
                          length := PPQ / 4
                          midi := note
                          vel := velocity }])
      else st
    (st2.1 + PPQ / 8, st2.2)
  else st

/-- `handleFileImport` (PianoRoll.tsx 759-807): scan the buffer with
`for (let i = 0; i < midiData.length - 3; i++)`. For a buffer of fewer
than 4 bytes the JS bound is ≤ 0 and the loop body never runs, which
truncated Nat subtraction reproduces. -/
def handleFileImport (data : List Nat) (now : Nat) : List Note :=
  ((List.range (data.length - 3)).foldl (scanStep data now) (0, [])).2

/-- Editing operations that mutate the note store, as exposed by the
PianoRoll.tsx handlers. -/
inductive Op where
  | addClick (now rawTick midi : Nat)
  | moveTo (noteId : String) (rawTick rawMidi : Int)
  | removeNote (noteId : String)
  | clear
  | importMidi (data : List Nat) (now : Nat)

/-- Apply one operation to the store. `importMidi` replaces the store
only when at least one note was recovered (`if importedNotes.length > 0`),
`clear` empties it (`setNotes([])`). -/
def applyOp (op : Op) (s : List Note) : List Note :=
  match op with
  | .addClick now rawTick midi => addClick now rawTick midi s
  | .moveTo i rt rm => moveTo i rt rm s
  | .removeNote i => removeNote i s
  | .clear => []
  | .importMidi data now =>
      let imported := handleFileImport data now
      if 0 < imported.length then imported else s

/-- Run a sequence of operations from the initial empty store
(`useState<Note[]>([])`). -/
def runOps (ops : List Op) : List Note :=
  ops.foldl (fun s op => applyOp op s) []

/-- JavaScript `ToInt32`: reduce a number modulo 2^32 into
[-2^31, 2^31). JS `&` and `>>` first convert both operands this way. -/
def toInt32 (n : Int) : Int :=
  let m := n % 4294967296
  if m < 2147483648 then m else m - 4294967296

/-- The variable-length-quantity loop of `writeMidi` (midi.ts 76-81):
`do { vl.unshift(v & 0x7f); v = v >> 7 } while (v > 0)`.
`v & 0x7f` takes the low 7 bits of the two's-complement int32 value,
which is Euclidean mod 128 (128 divides 2^32), a value in [0,128) so
`Int.toNat` is lossless; `v >> 7` is an arithmetic shift, i.e. floor
division by 128, which for the positive divisor 128 is `Int` division.
`unshift` prepends, so the group of the current iteration ends up after
the groups of later iterations. -/
def vlqGroups (v : Int) : List Nat :=
  let g := (toInt32 v % 128).toNat
  let v2 := toInt32 v / 128
  if 0 < v2 then vlqGroups v2 ++ [g] else [g]
termination_by (toInt32 v).toNat
decreasing_by
  have hx : toInt32 v < 2147483648 := by
    simp only [toInt32]
    split <;> omega
  generalize hgen : toInt32 v = x at *
  simp only [toInt32]
  split <;> omega

/-- The emission loop of `writeMidi` (midi.ts 82-86): every group except
the last is emitted with the continuation bit, `val | 0x80`. -/
def markCont : List Nat → List Nat
  | [] => []
  | [g] => [g]
  | g :: rest => (g ||| 128) :: markCont rest

/-- Delta-time encoding as `writeMidi` performs it: the 7-bit groups of
the do-while loop, continuation bit on all but the last byte. -/
def encodeVLQ (delta : Int) : List Nat :=
  markCont (vlqGroups delta)

/-- Spec-side definition, following the claim's words: the 7-bit groups
of a nonnegative delta, most-significant group first, at least one group
(delta = 0 gives the single group 0). Compared against `vlqGroups`. -/
def vlqGroupsSpec (n : Nat) : List Nat :=
  if n < 128 then [n] else vlqGroupsSpec (n / 128) ++ [n % 128]
termination_by n
decreasing_by omega

/-- `writeUint32BE` of midi.ts: `[(n>>24)&0xff, (n>>16)&0xff, (n>>8)&0xff, n&0xff]`.
The values passed (chunk lengths) are far below 2^31, where the JS int32
operators agree with the Nat ones. -/
def writeUint32BE (n : Nat) : List Nat :=
  [n >>> 24 &&& 0xff, n >>> 16 &&& 0xff, n >>> 8 &&& 0xff, n &&& 0xff]

/-- `writeUint16BE` of midi.ts. -/
def writeUint16BE (n : Nat) : List Nat :=
  [n >>> 8 &&& 0xff, n &&& 0xff]

/-- `Math.round(60000000 / bpm)` for positive integer `bpm`:
round-half-up of the exact quotient, i.e. floor(60000000/bpm + 1/2). -/
def mpqOf (bpm : Nat) : Nat :=
  (2 * 60000000 + bpm) / (2 * bpm)

/-- An entry of the `events` array of `writeMidi`: an absolute tick and
the event bytes, whose first byte is a 0x00 delta placeholder that is
dropped again when the stream is assembled (`ev.bytes.slice(1)`). -/
structure MidiEvent where
  tick : Nat
  bytes : List Nat
deriving DecidableEq

/-- The delta/emission loop of `writeMidi` (midi.ts 70-88): walk the
sorted events, encode each tick difference as a VLQ and append the event
bytes without their placeholder. -/
def deltaLoop (lastTick : Nat) : List MidiEvent → List Nat
  | [] => []
  | ev :: rest =>
      encodeVLQ ((ev.tick : Int) - (lastTick : Int)) ++ ev.bytes.drop 1 ++ deltaLoop ev.tick rest

/-- `writeMidi(notes, ppq, bpm)` of src/lib/midi.ts (source defaults:
ppq = 480, bpm = 120). Header chunk "MThd" (bytes 77,84,104,100) with
format 0, one track, division = ppq; a tempo meta event at tick 0; a
note-on/note-off pair per note; events sorted by tick with a stable sort
(JS `Array.prototype.sort` is stable, modelled by `List.mergeSort`);
delta-encoded stream closed by the end-of-track meta event inside an
"MTrk" chunk (bytes 77,84,114,107). -/
def writeMidi (notes : List Note) (ppq : Nat) (bpm : Nat) : List Nat :=
  let headerChunk :=
    [77, 84, 104, 100] ++ writeUint32BE 6 ++ writeUint16BE 0 ++ writeUint16BE 1 ++
      writeUint16BE ppq
  let mpq := mpqOf bpm
  let events : List MidiEvent :=
    ⟨0, [0x00, 0xff, 0x51, 0x03, mpq >>> 16 &&& 0xff, mpq >>> 8 &&& 0xff, mpq &&& 0xff]⟩ ::
      (notes.map (fun n =>
        [(⟨n.tick, [0x00, 0x90, n.midi &&& 0x7f, n.vel &&& 0x7f]⟩ : MidiEvent),
         ⟨n.tick + n.length, [0x00, 0x80, n.midi &&& 0x7f, 0x40]⟩])).flatten
  let sorted := events.mergeSort (fun a b => decide (a.tick ≤ b.tick))
  let outBytes := deltaLoop 0 sorted ++ [0x00, 0xff, 0x2f, 0x00]
  let trackChunk := [77, 84, 114, 107] ++ writeUint32BE outBytes.length ++ outBytes
  headerChunk ++ trackChunk

/-- `exportMIDI` of PianoRoll.tsx (730-739): it calls
`writeMidi(notes, BPM, PPQ)`, so the positional arguments land in
`writeMidi`'s `(ppq, bpm)` parameters in swapped roles. -/
def exportMIDI (notes : List Note) : List Nat :=
  writeMidi notes BPM PPQ

/-- Playback state driven by `playNotes` (PianoRoll.tsx 670-728):
the `isPlaying` React state, the cursor tick, whether the Tone.js
transport is running, and the attack times of the scheduled triggers. -/
structure PlayState where
  isPlaying : Bool
  cursorTick : ℚ
  transportRunning : Bool
  scheduled : List ℚ
deriving DecidableEq

/-- The fixed end boundary: `const maxTicks = PPQ * 16` (4 bars of 4/4). -/
def maxTicks : Nat := PPQ * 16

/-- The start branch of `playNotes`: reset the cursor, schedule every
note at `(note.tick / PPQ) * (60 / BPM)` seconds, start the transport. -/
def startPlayback (notes : List Note) : PlayState :=
  { isPlaying := true
    cursorTick := 0
    transportRunning := true
    scheduled := notes.map (fun n => (n.tick : ℚ) / (PPQ : ℚ) * (60 / (BPM : ℚ))) }

/-- The 50 ms interval callback of `playNotes` (PianoRoll.tsx 708-727).
`capturedIsPlaying` is the value of the `isPlaying` state variable closed
over when the callback was created: `playNotes` only schedules the
interval after passing the `if (isPlaying)` early return, so the captured
value is `false` (the `setIsPlaying(true)` call does not change the
already-captured binding). The callback recomputes the tick from the
transport clock and, when the tick is not `<= maxTicks`, stops the
transport, cancels the scheduled triggers and resets cursor and flag. -/
def tickCallback (capturedIsPlaying : Bool) (s : PlayState) (transportSeconds : ℚ) : PlayState :=
  if !capturedIsPlaying then s
  else
    let currentTick := transportSeconds / 60 * (BPM : ℚ) * (PPQ : ℚ)
    if currentTick ≤ (maxTicks : ℚ) then { s with cursorTick := currentTick }
    else { isPlaying := false, cursorTick := 0, transportRunning := false, scheduled := [] }

/-- Helper predicate of the import scan: the byte at offset `i` has high
nibble 0x9 (`(byte & 0xF0) === 0x90`). -/
def isNoteOnByte (data : List Nat) (i : Nat) : Bool :=
  data.getD i 0 &&& 0xF0 == 0x90

/-- Helper predicate of the import scan: offset `i` holds a note-on
status byte whose event passes the acceptance filter
(`velocity > 0 && note >= 21 && note <= 108`). -/
def isAcceptedAt (data : List Nat) (i : Nat) : Bool :=
  isNoteOnByte data i && decide (0 < data.getD (i + 2) 0) &&
    decide (21 ≤ data.getD (i + 1) 0) && decide (data.getD (i + 1) 0 ≤ 108)

/-- The start tick the scanner gives the accepted event at offset `j`:
`PPQ / 8` ticks per note-on status byte at an earlier offset. -/
def tickFormula (data : List Nat) (j : Nat) : Nat :=
  (PPQ / 8) * ((List.range j).filter (fun i => isNoteOnByte data i)).length

/-! Helper lemmas shared by the claim theorems. -/

/-- For inputs below 2^31 the int32 do-while loop of `writeMidi` produces
exactly the canonical 7-bit groups, most-significant first. -/
theorem vlqGroups_eq_spec : ∀ d : Nat, d < 2147483648 → vlqGroups (d : Int) = vlqGroupsSpec d := by
  intro d
  induction d using Nat.strong_induction_on with
  | _ d ih =>
    intro hd
    have h32 : toInt32 (d : Int) = (d : Int) := by
      simp only [toInt32]
      omega
    have hmod : (((d : Int)) % 128).toNat = d % 128 := by omega
    have hdiv : (d : Int) / 128 = ((d / 128 : Nat) : Int) := by omega
    rw [vlqGroups, vlqGroupsSpec]
    simp only [h32, hmod, hdiv]
    by_cases hc : d < 128
    · rw [if_neg (by omega : ¬ (0 : Int) < ((d / 128 : Nat) : Int)), if_pos hc]
      simp [Nat.mod_eq_of_lt hc]
    · rw [if_pos (by omega : (0 : Int) < ((d / 128 : Nat) : Int)), if_neg hc]
      rw [ih (d / 128) (by omega) (by omega)]

/-- Characterization of the `handleFileImport` scan over the first `n`
offsets: the running tick counts `PPQ / 8` per note-on status byte, each
accepted note's tick is given by `tickFormula` at its offset, and every
accepted note has length `PPQ / 4`. -/
theorem scan_spec (data : List Nat) (now : Nat) (n : Nat) :
    ((List.range n).foldl (scanStep data now) (0, [])).1
        = (PPQ / 8) * ((List.range n).filter (fun i => isNoteOnByte data i)).length
    ∧ ((List.range n).foldl (scanStep data now) (0, [])).2.map Note.tick
        = ((List.range n).filter (fun j => isAcceptedAt data j)).map (tickFormula data)
    ∧ ∀ note ∈ ((List.range n).foldl (scanStep data now) (0, [])).2, note.length = PPQ / 4 := by
  induction n with
  | zero => simp
  | succ n ih =>
    obtain ⟨ih1, ih2, ih3⟩ := ih
    rw [List.range_succ]
    simp only [List.foldl_append, List.foldl_cons, List.foldl_nil, List.filter_append] at *
    set st := (List.range n).foldl (scanStep data now) (0, ([] : List Note)) with hst
    have htf : tickFormula data n = st.1 := by
      rw [tickFormula, ih1]
    by_cases hb : (data.getD n 0 &&& 0xF0 == 0x90) = true
    · have hbOn : isNoteOnByte data n = true := hb
      by_cases hacc : 0 < data.getD (n + 2) 0 ∧ 21 ≤ data.getD (n + 1) 0 ∧ data.getD (n + 1) 0 ≤ 108
      · have hAcc : isAcceptedAt data n = true := by
          simp only [isAcceptedAt, hbOn, Bool.true_and, Bool.and_eq_true, decide_eq_true_eq]
          exact ⟨⟨hacc.1, hacc.2.1⟩, hacc.2.2⟩
        have hstep : scanStep data now st n =
            (st.1 + PPQ / 8,
             st.2 ++ [{ id := importedId now n, tick := st.1, length := PPQ / 4,
                        midi := data.getD (n + 1) 0, vel := data.getD (n + 2) 0 }]) := by
          simp only [scanStep, hb, if_true, if_pos hacc]
        rw [hstep]
        refine ⟨?_, ?_, ?_⟩
        · simp [List.filter, hbOn, ih1]
          ring
        · simp [List.filter, hAcc, List.map_append, ih2, htf]
        · intro note hmem
          rcases List.mem_append.mp hmem with h | h
          · exact ih3 note h
          · simp at h
            rw [h]
      · have hAcc : isAcceptedAt data n = false := by
          cases hA : isAcceptedAt data n
          · rfl
          · exfalso
            apply hacc
            simp only [isAcceptedAt, Bool.and_eq_true, decide_eq_true_eq] at hA
            exact ⟨hA.1.1.2, hA.1.2, hA.2⟩
        have hstep : scanStep data now st n = (st.1 + PPQ / 8, st.2) := by
          simp only [scanStep, hb, if_true, if_neg hacc]
        rw [hstep]
        refine ⟨?_, ?_, ?_⟩
        · simp [List.filter, hbOn, ih1]
          ring
        · simp [List.filter, hAcc, ih2]
        · exact ih3
    · have hbOn : isNoteOnByte data n = false := by
        cases h : isNoteOnByte data n
        · rfl
        · exact absurd h hb
      have hAcc : isAcceptedAt data n = false := by
        simp only [isAcceptedAt, hbOn, Bool.false_and]
      have hstep : scanStep data now st n = st := by
        simp only [scanStep, hb]
        simp
      rw [hstep]
      refine ⟨?_, ?_, ?_⟩
      · simp [List.filter, hbOn, ih1]
      · simp [List.filter, hAcc, ih2]
      · exact ih3

/-- Every note recovered by the import scan sits on a multiple of
`PPQ / 8` ticks. -/
theorem import_tick_dvd (data : List Nat) (now : Nat) :
    ∀ n ∈ handleFileImport data now, (PPQ / 8) ∣ n.tick := by
  intro n hn
  have h2 := (scan_spec data now (data.length - 3)).2.1
  have hmem : n.tick ∈ List.map Note.tick (handleFileImport data now) :=
    List.mem_map_of_mem Note.tick hn
  unfold handleFileImport at hmem
  rw [h2] at hmem
  obtain ⟨j, hj, hjt⟩ := List.mem_map.mp hmem
  rw [← hjt]
  unfold tickFormula
  exact dvd_mul_right _ _

/-- Each editing operation preserves the invariant that every stored
note's tick is a multiple of `PPQ / 8`. -/
theorem applyOp_tick_dvd (op : Op) (s : List Note)
    (h : ∀ n ∈ s, (PPQ / 8) ∣ n.tick) :
    ∀ n ∈ applyOp op s, (PPQ / 8) ∣ n.tick := by
  have hsnap : ∀ t : Nat, (PPQ / 8) ∣ snapToGrid t 4 := by
    intro t
    have he : snapToGrid t 4 = t / 120 * 120 := rfl
    have h60 : PPQ / 8 = 60 := rfl
    rw [he, h60]
    exact ⟨t / 120 * 2, by ring⟩
  cases op with
  | addClick now rawTick midi =>
      intro n hn
      simp only [applyOp, addClick] at hn
      rcases List.mem_append.mp hn with h1 | h1
      · exact h n h1
      · have he : n = { id := toString now, tick := snapToGrid rawTick 4, length := PPQ / 4,
                        midi := midi, vel := 80 } := by simpa using h1
        rw [he]
        exact hsnap rawTick
  | moveTo i rt rm =>
      intro n hn
      simp only [applyOp, moveTo, List.mem_map] at hn
      obtain ⟨m, hm, hfm⟩ := hn
      by_cases hc : m.id = i
      · rw [if_pos hc] at hfm
        rw [← hfm]
        exact hsnap _
      · rw [if_neg hc] at hfm
        rw [← hfm]
        exact h m hm
  | removeNote i =>
      intro n hn
      simp only [applyOp] at hn
      exact h n (List.mem_of_mem_filter hn)
  | clear =>
      intro n hn
      simp only [applyOp] at hn
      exact absurd hn (List.not_mem_nil n)
  | importMidi data now =>
      intro n hn
      simp only [applyOp] at hn
      by_cases hc : 0 < (handleFileImport data now).length
      · rw [if_pos hc] at hn
        exact import_tick_dvd data now n hn
      · rw [if_neg hc] at hn
        exact h n hn

/-- Folding any operation sequence preserves the tick invariant. -/
theorem foldOps_tick_dvd : ∀ (ops : List Op) (s : List Note),
    (∀ n ∈ s, (PPQ / 8) ∣ n.tick) →
    ∀ n ∈ ops.foldl (fun s op => applyOp op s) s, (PPQ / 8) ∣ n.tick := by
  intro ops
  induction ops with
  | nil => intro s h n hn; exact h n hn
  | cons op ops ih =>
      intro s h
      exact ih (applyOp op s) (applyOp_tick_dvd op s h)

/-! Claim theorems. -/

/-- Claim C1. For the document constants PPQ = 480, BPM = 120, the claim
says the exported header's division field is 480 and the first track event
is the tempo meta event 0x00,0xFF,0x51,0x03,0x07,0xA1,0x20. The first
conjunct evaluates the actual Export MIDI path on an empty store:
`exportMIDI` forwards `writeMidi(notes, BPM, PPQ)` into the parameters
`(ppq, bpm)`, so the division bytes are 0,120 (the value 120) and the
tempo payload is 1,232,72 (125000 microseconds, i.e. 480 BPM). The second
conjunct shows `writeMidi` itself, called with ppq = 480 and bpm = 120 as
its signature documents, produces exactly the claimed division bytes
1,224 (the value 480) and tempo event 0,255,81,3,7,161,32: the spec
describes `writeMidi` correctly and the call site swaps the arguments. -/
theorem exportMIDI_swapped_header_and_tempo :
    exportMIDI [] =
      [77, 84, 104, 100, 0, 0, 0, 6, 0, 0, 0, 1, 0, 120,
       77, 84, 114, 107, 0, 0, 0, 11, 0, 255, 81, 3, 1, 232, 72, 0, 255, 47, 0]
    ∧ writeMidi [] 480 120 =
      [77, 84, 104, 100, 0, 0, 0, 6, 0, 0, 0, 1, 1, 224,
       77, 84, 114, 107, 0, 0, 0, 11, 0, 255, 81, 3, 7, 161, 32, 0, 255, 47, 0] := by
  constructor
  · simp [exportMIDI, writeMidi, writeUint32BE, writeUint16BE, mpqOf, deltaLoop,
      encodeVLQ, vlqGroups, toInt32, markCont, BPM, PPQ, List.mergeSort]
    decide
  · simp [writeMidi, writeUint32BE, writeUint16BE, mpqOf, deltaLoop,
      encodeVLQ, vlqGroups, toInt32, markCont, List.mergeSort]
    decide

/-- Claim C2. The claim says the 3-byte buffer 0x90,60,100 imports as
exactly one note with pitch 60 and that 0x90,60,0 imports as none. The
scan loop `for (i = 0; i < midiData.length - 3; i++)` never runs on a
3-byte buffer, so both yield the empty list: the first half of the claim
fails on the code. The third conjunct shows the same event is accepted as
soon as one extra byte follows, isolating the off-by-one loop bound
(reading only offsets i+1 and i+2, the bound should be i < length - 2). -/
theorem import_three_byte_buffer_empty :
    handleFileImport [0x90, 60, 100] 0 = []
    ∧ handleFileImport [0x90, 60, 0] 0 = []
    ∧ handleFileImport [0x90, 60, 100, 0] 0
        = [{ id := importedId 0 0, tick := 0, length := PPQ / 4, midi := 60, vel := 100 }] := by
  refine ⟨rfl, rfl, by decide⟩

/-- Claim C3, counterexample. At delta = 2^31 the claim fails: JS `&` and
`>>` operate on the ToInt32 value, which is negative, so the do-while loop
emits the single byte 0x00 instead of the five 7-bit groups of 2^31. -/
theorem encodeVLQ_overflow_counterexample :
    encodeVLQ ((2147483648 : Nat) : Int) = [0]
    ∧ markCont (vlqGroupsSpec 2147483648) = [136, 128, 128, 128, 0]
    ∧ ([0] : List Nat) ≠ [136, 128, 128, 128, 0] := by
  refine ⟨?_, ?_, by decide⟩
  · simp [encodeVLQ, vlqGroups, toInt32, markCont]
  · simp [vlqGroupsSpec, markCont]

/-- Claim C3, amended: for every delta below 2^31 (where the JS 32-bit
bitwise operators agree with exact arithmetic) the exporter's VLQ encoding
emits the delta's 7-bit groups most-significant-group first, continuation
bit on every byte but the last, at least one byte; in particular
0 ↦ 0x00, 127 ↦ 0x7F, 128 ↦ 0x81 0x00 and 16383 ↦ 0xFF 0x7F. -/
theorem encodeVLQ_spec_below_two_pow_31 :
    (∀ d : Nat, d < 2147483648 → encodeVLQ (d : Int) = markCont (vlqGroupsSpec d))
    ∧ encodeVLQ 0 = [0x00]
    ∧ encodeVLQ 127 = [0x7F]
    ∧ encodeVLQ 128 = [0x81, 0x00]
    ∧ encodeVLQ 16383 = [0xFF, 0x7F] := by
  refine ⟨?_, ?_, ?_, ?_, ?_⟩
  · intro d hd
    rw [encodeVLQ, vlqGroups_eq_spec d hd]
  all_goals simp [encodeVLQ, vlqGroups, toInt32, markCont]

/-- Witness for C3: the amended theorem applied at the concrete delta 1000. -/
theorem encodeVLQ_spec_below_two_pow_31_witness :
    encodeVLQ ((1000 : Nat) : Int) = markCont (vlqGroupsSpec 1000) :=
  encodeVLQ_spec_below_two_pow_31.1 1000 (by decide)

/-- Claim C4. For any tick t and a positive divisor d of PPQ, snapping
returns the greatest multiple of PPQ / d that is ≤ t (a multiple of the
grid step, at most t, and within one grid step of t), and snapping is
idempotent. -/
theorem snapToGrid_floor_idempotent (t d : Nat) (hd : 0 < d) (hdvd : d ∣ PPQ) :
    (PPQ / d) ∣ snapToGrid t d
    ∧ snapToGrid t d ≤ t
    ∧ t < snapToGrid t d + PPQ / d
    ∧ snapToGrid (snapToGrid t d) d = snapToGrid t d := by
  have hppq : 0 < PPQ := by decide
  have hg : 0 < PPQ / d := Nat.div_pos (Nat.le_of_dvd hppq hdvd) hd
  unfold snapToGrid
  refine ⟨dvd_mul_left _ _, Nat.div_mul_le_self t _, ?_, ?_⟩
  · have h2 := Nat.div_add_mod t (PPQ / d)
    have h1 := Nat.mod_lt t hg
    calc t = PPQ / d * (t / (PPQ / d)) + t % (PPQ / d) := h2.symm
      _ < PPQ / d * (t / (PPQ / d)) + PPQ / d := Nat.add_lt_add_left h1 _
      _ = t / (PPQ / d) * (PPQ / d) + PPQ / d := by ring
  · rw [Nat.mul_div_cancel _ hg]

/-- Witness for C4 at t = 1000, d = 4 (PPQ / d = 120, snap = 960). -/
theorem snapToGrid_floor_idempotent_witness :
    (PPQ / 4) ∣ snapToGrid 1000 4
    ∧ snapToGrid 1000 4 ≤ 1000
    ∧ 1000 < snapToGrid 1000 4 + PPQ / 4
    ∧ snapToGrid (snapToGrid 1000 4) 4 = snapToGrid 1000 4 :=
  snapToGrid_floor_idempotent 1000 4 (by decide) (by decide)

/-- Claim C5. The claim says playback stops as soon as the cursor reaches
or exceeds PPQ * 16 ticks. The interval callback contradicts this twice.
First conjunct: the callback scheduled by `playNotes` closed over the
render-time `isPlaying` value, which is false when the interval is
created, so the callback as scheduled returns the state unchanged — it
never updates the cursor and never auto-stops. Remaining conjuncts: even
with a live captured flag, at transport time 8 s the recomputed tick
(8 / 60 * BPM * PPQ = 7680) exactly equals maxTicks = PPQ * 16, and the
`currentTick <= maxTicks` branch keeps playing with the cursor set to
7680 rather than stopping; the stop branch runs only strictly beyond the
boundary, contradicting the inline comment "Auto-stop when reaching
end". -/
theorem tickCallback_no_stop_at_boundary :
    (∀ (s : PlayState) (t : ℚ), tickCallback false s t = s)
    ∧ startPlayback [{ id := toString 1, tick := 0, length := 480, midi := 60, vel := 100 }]
        = ⟨true, 0, true, [0]⟩
    ∧ tickCallback true ⟨true, 0, true, [0]⟩ 8 = ⟨true, 7680, true, [0]⟩
    ∧ (8 : ℚ) / 60 * (BPM : ℚ) * (PPQ : ℚ) = ((maxTicks : Nat) : ℚ) := by
  refine ⟨?_, ?_, ?_, ?_⟩
  · intro s t
    simp [tickCallback]
  · simp [startPlayback]
  · simp [tickCallback, BPM, PPQ, maxTicks]
    norm_num
  · simp [BPM, PPQ, maxTicks]
    norm_num

/-- Claim C6, counterexample. Two adds carrying the same `Date.now()`
millisecond (two clicks inside one millisecond) assign the same id to
both notes, so the newly added note's id is not distinct from the id
already in the store. -/
theorem addClick_duplicate_id_counterexample :
    (runOps [Op.addClick 1000 0 60, Op.addClick 1000 130 64]).map Note.id
        = [toString 1000, toString 1000]
    ∧ ¬ ((runOps [Op.addClick 1000 0 60, Op.addClick 1000 130 64]).map Note.id).Nodup := by
  decide

/-- Claim C6, amended: each newly added note's id is the decimal string
of the add-time millisecond timestamp — so adds within the same
millisecond receive equal, not fresh, ids — the ids of the notes already
stored are untouched by an add, moving a note never changes any id, and
removal only drops notes, leaving every surviving note identical. -/
theorem note_id_assignment_and_stability :
    (∀ (now rawTick midi : Nat) (s : List Note),
        (addClick now rawTick midi s).map Note.id = s.map Note.id ++ [toString now])
    ∧ (∀ (i : String) (rt rm : Int) (s : List Note),
        (moveTo i rt rm s).map Note.id = s.map Note.id)
    ∧ (∀ (i : String) (s : List Note) (n : Note), n ∈ removeNote i s → n ∈ s) := by
  refine ⟨?_, ?_, ?_⟩
  · intro now rawTick midi s
    simp [addClick]
  · intro i rt rm s
    simp only [moveTo, List.map_map]
    apply List.map_congr_left
    intro a _
    by_cases h : a.id = i
    · simp [h]
    · simp [h]
  · intro i s n hn
    exact List.mem_of_mem_filter hn

/-- Witness for C6: the removal conjunct applied at a concrete store. -/
theorem note_id_assignment_and_stability_witness :
    ({ id := toString 1, tick := 0, length := 120, midi := 60, vel := 80 } : Note)
      ∈ [({ id := toString 1, tick := 0, length := 120, midi := 60, vel := 80 } : Note)] :=
  note_id_assignment_and_stability.2.2 (toString 2)
    [{ id := toString 1, tick := 0, length := 120, midi := 60, vel := 80 }]
    { id := toString 1, tick := 0, length := 120, midi := 60, vel := 80 }
    (by decide)

/-- Claim C7, counterexample. The requested pitch 5 lies in [0,127], so
the claim says it is kept exactly; the code clamps with
`Math.max(21, Math.min(108, ...))` and stores pitch 21. -/
theorem moveTo_pitch_clamp_counterexample :
    (moveTo (toString 1) 0 5
        [{ id := toString 1, tick := 0, length := 120, midi := 60, vel := 80 }]).map Note.midi
      = [21]
    ∧ ((0 : Int) ≤ 5 ∧ (5 : Int) ≤ 127)
    ∧ (21 : Nat) ≠ 5 := by
  decide

/-- Claim C7, amended: a moved note's resulting pitch is the requested
pitch clamped to [21, 108] (the 88-key range): below 21 gives 21, above
108 gives 108, and a request already in [21, 108] is kept exactly. -/
theorem moveTo_pitch_clamped_21_108 (i : String) (rt rm : Int) (s : List Note) (n : Note)
    (hn : n ∈ moveTo i rt rm s) (hid : n.id = i) :
    (n.midi : Int) = max 21 (min 108 rm)
    ∧ (rm < 21 → n.midi = 21)
    ∧ (108 < rm → n.midi = 108)
    ∧ (21 ≤ rm → rm ≤ 108 → (n.midi : Int) = rm) := by
  simp only [moveTo, List.mem_map] at hn
  obtain ⟨m, hm, hfm⟩ := hn
  by_cases hcase : m.id = i
  · rw [if_pos hcase] at hfm
    have hmidi : n.midi = (max 21 (min 108 rm)).toNat := by rw [← hfm]
    have hcast : (n.midi : Int) = max 21 (min 108 rm) := by
      rw [hmidi]
      omega
    refine ⟨hcast, ?_, ?_, ?_⟩
    · intro h1; omega
    · intro h1; omega
    · intro h1 h2; omega
  · rw [if_neg hcase] at hfm
    rw [← hfm] at hid
    exact absurd hid hcase

/-- Witness for C7: moving a note to the requested pitch 200 stores the
clamped pitch 108. -/
theorem moveTo_pitch_clamped_21_108_witness :
    ((({ id := toString 1, tick := 0, length := 120, midi := 108, vel := 80 } : Note).midi : Int)
      = max 21 (min 108 (200 : Int))) :=
  (moveTo_pitch_clamped_21_108 (toString 1) 0 200
    [{ id := toString 1, tick := 0, length := 120, midi := 60, vel := 80 }]
    { id := toString 1, tick := 0, length := 120, midi := 108, vel := 80 }
    (by decide) (by decide)).1

/-- Claim C8, counterexample. In the buffer 0x90,60,0,0x90,60,100,0 the
first note-on is rejected (velocity 0) but still advances the synthetic
tick, so the first accepted note receives tick 60, not 0 * (PPQ / 8): the
tick does not advance once per accepted event. -/
theorem import_tick_advance_counterexample :
    (handleFileImport [0x90, 60, 0, 0x90, 60, 100, 0] 0).map Note.tick = [60]
    ∧ (60 : Nat) ≠ 0 * (PPQ / 8) := by
  decide

/-- Claim C8, amended: the synthetic start tick advances by PPQ / 8 once
per scanned note-on status byte, accepted or not; hence each accepted
note's start tick is PPQ / 8 times the number of note-on status bytes at
earlier scan offsets, and every accepted note gets the fixed default
length PPQ / 4. -/
theorem import_tick_per_noteon_byte (data : List Nat) (now : Nat) :
    (handleFileImport data now).map Note.tick
        = ((List.range (data.length - 3)).filter (fun j => isAcceptedAt data j)).map
            (tickFormula data)
    ∧ ∀ n ∈ handleFileImport data now, n.length = PPQ / 4 := by
  unfold handleFileImport
  exact ⟨(scan_spec data now (data.length - 3)).2.1, (scan_spec data now (data.length - 3)).2.2⟩

/-- Witness for C8: the length conjunct applied to the note imported from
a concrete 4-byte buffer. -/
theorem import_tick_per_noteon_byte_witness :
    ({ id := importedId 0 0, tick := 0, length := PPQ / 4, midi := 60, vel := 100 } : Note).length
      = PPQ / 4 :=
  (import_tick_per_noteon_byte [0x90, 60, 100, 0] 0).2
    { id := importedId 0 0, tick := 0, length := PPQ / 4, midi := 60, vel := 100 }
    (by decide)

/-- Claim C9. Removing or moving with an id that matches no stored note
leaves the store exactly unchanged. -/
theorem unknown_id_noop (i : String) (rt rm : Int) (s : List Note)
    (h : ∀ n ∈ s, n.id ≠ i) :
    removeNote i s = s ∧ moveTo i rt rm s = s := by
  constructor
  · unfold removeNote
    apply List.filter_eq_self.mpr
    intro n hn
    simpa using h n hn
  · simp only [moveTo]
    have hcongr : ∀ n ∈ s, (if n.id = i then
        { n with tick := snapToGrid (max 0 rt).toNat 4, midi := (max 21 (min 108 rm)).toNat }
        else n) = id n := by
      intro n hn
      rw [if_neg (h n hn)]
      rfl
    rw [List.map_congr_left hcongr, List.map_id]

/-- Witness for C9 at a concrete one-note store and an unknown id. -/
theorem unknown_id_noop_witness :
    removeNote (toString 2) [{ id := toString 1, tick := 0, length := 120, midi := 60, vel := 80 }]
        = [{ id := toString 1, tick := 0, length := 120, midi := 60, vel := 80 }]
    ∧ moveTo (toString 2) 240 70
          [{ id := toString 1, tick := 0, length := 120, midi := 60, vel := 80 }]
        = [{ id := toString 1, tick := 0, length := 120, midi := 60, vel := 80 }] :=
  unknown_id_noop (toString 2) 240 70
    [{ id := toString 1, tick := 0, length := 120, midi := 60, vel := 80 }]
    (by decide)

/-- Claim C10. After any sequence of editing operations run from the
empty store, every stored note's start tick is a multiple of
PPQ / 8 = 60: clicks and drags snap to multiples of PPQ / 4 = 120 (drags
clamp the tick at 0 first), and imported notes get ticks that are
multiples of PPQ / 8. Since the store after every prefix of operations is
`runOps` of that prefix, this covers every note ever present. -/
theorem store_ticks_multiple_of_sixty (ops : List Op) :
    ∀ n ∈ runOps ops, (PPQ / 8) ∣ n.tick := by
  unfold runOps
  exact foldOps_tick_dvd ops [] (by simp)

/-- Witness for C10: a click at raw tick 250 stores tick 240, a multiple
of PPQ / 8. -/
theorem store_ticks_multiple_of_sixty_witness :
    (PPQ / 8) ∣ ({ id := toString 5, tick := 240, length := 120, midi := 60, vel := 80 } : Note).tick :=
  store_ticks_multiple_of_sixty [Op.addClick 5 250 60]
    { id := toString 5, tick := 240, length := 120, midi := 60, vel := 80 }
    (by decide)
